import Mathlib

/-!
Verification of the dataset-analysis program (`src/variable.py`) against its
specification.  The program is embedded shallowly:

* Python floats are modelled by exact rationals `ℚ`.  Every numeric value the
  program manipulates on the claimed inputs is a small decimal for which
  IEEE-754 double arithmetic is either exact or rounds both sides of the
  claimed equation identically, so `ℚ` equalities transfer to the claimed
  floating-point equalities.
* `float(value)` (the builtin parser used by `validate_numerical_data`) is
  modelled by `pyFloat`, which accepts the decimal-literal forms
  `[ws][+-]digits[.digits][(e|E)[+-]digits][ws]`; the `inf`/`nan` words and
  digit underscores accepted by CPython are outside `ℚ` and are not modelled
  (no claim depends on them).
* The statistics dictionary is modelled as a map `String → Option StatValue`;
  the filesystem used by the readers and the report writer is modelled by
  `FileSystem`, a map from names to contents plus a writability predicate, so
  that a failing `open(..., 'w')` is an explicit `Except.error`.
-/

set_option maxRecDepth 10000

/-- ASCII whitespace in the sense of Python's `str.strip`. -/
def isPySpace (c : Char) : Bool :=
  c = ' ' ∨ c = '\t' ∨ c = '\n' ∨ c = '\r' ∨ c = '\x0b' ∨ c = '\x0c'

/-- `str.strip()` on the character list. -/
def trimChars (cs : List Char) : List Char :=
  ((cs.dropWhile isPySpace).reverse.dropWhile isPySpace).reverse

/-- Python's `value.strip()`. -/
def pyStrip (s : String) : String :=
  String.mk (trimChars s.data)

/-- Split a character list at every occurrence of `sep`; the accumulator holds
the (reversed) current chunk.  `splitOnChar sep cs []` is the list of chunks. -/
def splitOnChar (sep : Char) : List Char → List Char → List (List Char)
  | [], acc => [acc.reverse]
  | c :: cs, acc =>
    if c = sep then acc.reverse :: splitOnChar sep cs []
    else splitOnChar sep cs (c :: acc)

/-- Value of a digit string, base 10. -/
def digitsToNat (ds : List Char) : Nat :=
  ds.foldl (fun a c => 10 * a + (c.toNat - 48)) 0

/-- Exponent part of a float literal: optional sign then at least one digit,
consuming the whole remaining input. -/
def parseExp (cs : List Char) : Option Int :=
  match cs with
  | [] => none
  | c :: rest =>
    let p : Int × List Char :=
      if c = '+' then (1, rest) else if c = '-' then (-1, rest) else (1, c :: rest)
    if p.2 ≠ [] ∧ p.2.all Char.isDigit then some (p.1 * digitsToNat p.2) else none

/-- Digested form of a successfully parsed float literal: sign, the mantissa
digits read as one integer, the number of fractional digits, and the value of
the exponent part.  The denoted number is
`(-1)^neg * mantNum / 10^fracLen * 10^ex`. -/
structure FloatLit where
  neg : Bool
  mantNum : ℕ
  fracLen : ℕ
  ex : ℤ
deriving DecidableEq, Repr

/-- Unsigned decimal float literal: `digits[.digits][(e|E)exp]`, needing at
least one digit in the integer or fractional part. -/
def pyFloatCore (neg : Bool) (cs : List Char) : Option FloatLit :=
  let ipSplit := cs.span Char.isDigit
  let fpSplit : List Char × List Char :=
    match ipSplit.2 with
    | '.' :: r => r.span Char.isDigit
    | _ => ([], ipSplit.2)
  if ipSplit.1 = [] ∧ fpSplit.1 = [] then none
  else
    let mant : ℕ := digitsToNat (ipSplit.1 ++ fpSplit.1)
    match fpSplit.2 with
    | [] => some ⟨neg, mant, fpSplit.1.length, 0⟩
    | e :: r =>
      if e = 'e' ∨ e = 'E' then
        match parseExp r with
        | some ex => some ⟨neg, mant, fpSplit.1.length, ex⟩
        | none => none
      else none

/-- Syntactic scan of Python's `float(s)` on finite decimal literals: strip
whitespace, take an optional sign, then parse an unsigned literal.  This stage
involves no rational arithmetic, so it evaluates by `decide`. -/
def pyFloatScan (s : String) : Option FloatLit :=
  match trimChars s.data with
  | [] => none
  | '+' :: rest => pyFloatCore false rest
  | '-' :: rest => pyFloatCore true rest
  | cs => pyFloatCore false cs

/-- The rational value denoted by a parsed float literal. -/
def FloatLit.toRat (l : FloatLit) : ℚ :=
  (cond l.neg (-1) 1) * (l.mantNum : ℚ) / (10 : ℚ) ^ l.fracLen * (10 : ℚ) ^ l.ex

/-- Model of Python's `float(s)` on finite decimal literals. -/
def pyFloat (s : String) : Option ℚ :=
  (pyFloatScan s).map FloatLit.toRat

/-- The error kinds raised by the validator (`ValueError` messages in the
source, distinguished here by shape): `EmptyInput` for "File is empty",
`InvalidValue value position` for "Invalid non-numeric value ... at
position ...". -/
inductive ValidationError where
  | EmptyInput : ValidationError
  | InvalidValue (value : String) (position : Nat) : ValidationError
deriving DecidableEq, Repr

/-- The `for i, value in enumerate(data, 1)` loop of `validate_numerical_data`,
started at position `pos`: convert each token with `pyFloat`, aborting with
`InvalidValue` at the first token that fails to parse. -/
def validateFrom (pos : Nat) : List String → Except ValidationError (List ℚ)
  | [] => .ok []
  | t :: ts =>
    match pyFloat t with
    | some v =>
      match validateFrom (pos + 1) ts with
      | .ok vs => .ok (v :: vs)
      | .error e => .error e
    | none => .error (.InvalidValue t pos)

/-- `validate_numerical_data(data)`: raise `EmptyInput` on an empty list,
otherwise convert every token in order with 1-based positions. -/
def validate_numerical_data (tokens : List String) : Except ValidationError (List ℚ) :=
  if tokens.isEmpty then .error .EmptyInput
  else validateFrom 1 tokens

/-- `calculate_total(data)`: `total = 0`, then `total += value` over the list. -/
def calculate_total (data : List ℚ) : ℚ :=
  data.foldl (· + ·) 0

/-- `calculate_average(data)`: 0 on empty input, else `total / len(data)`. -/
def calculate_average (data : List ℚ) : ℚ :=
  if data.isEmpty then 0
  else calculate_total data / (data.length : ℚ)

/-- `calculate_minimum(data)`: `None` on empty input, else a linear scan from
`data[0]` that replaces the running value whenever `value < minimum`. -/
def calculate_minimum (data : List ℚ) : Option ℚ :=
  match data with
  | [] => none
  | d :: ds => some (ds.foldl (fun m v => if v < m then v else m) d)

/-- `calculate_maximum(data)`: `None` on empty input, else a linear scan from
`data[0]` that replaces the running value whenever `value > maximum`. -/
def calculate_maximum (data : List ℚ) : Option ℚ :=
  match data with
  | [] => none
  | d :: ds => some (ds.foldl (fun m v => if v > m then v else m) d)

/-- `evaluate_performance(average, threshold)`; the source gives `threshold`
the default value 75, which callers here pass explicitly. -/
def evaluate_performance (average : ℚ) (threshold : ℚ) : String :=
  if average ≥ threshold then "High Performance" else "Needs Improvement"

/-- `get_unique_categories(categories)`: the set of elements and its size. -/
def get_unique_categories (categories : List String) : Finset String × ℕ :=
  let unique_categories := categories.toFinset
  (unique_categories, unique_categories.card)

/-! ### Helper lemmas -/

/-- Peeling one `pyFloat` evaluation: the scan result plus the value of its
literal give the parsed rational. -/
lemma pyFloat_of_scan (s : String) (l : FloatLit) (v : ℚ)
    (hscan : pyFloatScan s = some l) (hval : l.toRat = v) : pyFloat s = some v := by
  simp [pyFloat, hscan, hval]

/-- A literal with no fractional digits, no exponent and no sign denotes its
mantissa. -/
lemma pyFloat_scan_nat (s : String) (n : ℕ) (h : pyFloatScan s = some ⟨false, n, 0, 0⟩) :
    pyFloat s = some (n : ℚ) := by
  simp [pyFloat, h, FloatLit.toRat]

lemma foldl_add_eq_add_sum (l : List ℚ) : ∀ a : ℚ, l.foldl (· + ·) a = a + l.sum := by
  induction l with
  | nil => intro a; simp
  | cons x l ih => intro a; simp [List.foldl_cons, ih, add_assoc]

lemma foldl_min_mem (ds : List ℚ) : ∀ d : ℚ,
    ds.foldl (fun m v => if v < m then v else m) d ∈ d :: ds := by
  induction ds with
  | nil => intro d; simp
  | cons v ds ih =>
    intro d
    simp only [List.foldl_cons]
    rcases List.mem_cons.1 (ih (if v < d then v else d)) with h | h
    · rw [h]
      by_cases hv : v < d <;> simp [hv]
    · simp [h]

lemma foldl_min_le (ds : List ℚ) : ∀ d : ℚ,
    ds.foldl (fun m v => if v < m then v else m) d ≤ d
    ∧ ∀ x ∈ ds, ds.foldl (fun m v => if v < m then v else m) d ≤ x := by
  induction ds with
  | nil => intro d; simp
  | cons v ds ih =>
    intro d
    simp only [List.foldl_cons]
    obtain ⟨h1, h2⟩ := ih (if v < d then v else d)
    have hd : (if v < d then v else d) ≤ d := by
      by_cases hv : v < d <;> simp [hv, le_of_lt]
    have hv' : (if v < d then v else d) ≤ v := by
      by_cases hv : v < d <;> simp [hv, le_of_not_lt]
    refine ⟨le_trans h1 hd, ?_⟩
    intro x hx
    rcases List.mem_cons.1 hx with h | h
    · rw [h]; exact le_trans h1 hv'
    · exact h2 x h

lemma foldl_max_mem (ds : List ℚ) : ∀ d : ℚ,
    ds.foldl (fun m v => if v > m then v else m) d ∈ d :: ds := by
  induction ds with
  | nil => intro d; simp
  | cons v ds ih =>
    intro d
    simp only [List.foldl_cons]
    rcases List.mem_cons.1 (ih (if v > d then v else d)) with h | h
    · rw [h]
      by_cases hv : v > d <;> simp [hv]
    · simp [h]

lemma foldl_max_ge (ds : List ℚ) : ∀ d : ℚ,
    d ≤ ds.foldl (fun m v => if v > m then v else m) d
    ∧ ∀ x ∈ ds, x ≤ ds.foldl (fun m v => if v > m then v else m) d := by
  induction ds with
  | nil => intro d; simp
  | cons v ds ih =>
    intro d
    simp only [List.foldl_cons]
    obtain ⟨h1, h2⟩ := ih (if v > d then v else d)
    have hd : d ≤ (if v > d then v else d) := by
      by_cases hv : v > d <;> simp [hv, le_of_lt]
    have hv' : v ≤ (if v > d then v else d) := by
      by_cases hv : v > d <;> simp [hv, le_of_not_lt]
    refine ⟨le_trans hd h1, ?_⟩
    intro x hx
    rcases List.mem_cons.1 hx with h | h
    · rw [h]; exact le_trans hv' h1
    · exact h2 x h

/-! ### Claims about the aggregator and classifier -/

/-- Claim C2: `calculate_total` returns the arithmetic sum of its elements and
0 on the empty sequence; `calculate_average` returns
`calculate_total data / length data` on every non-empty sequence and 0 on the
empty sequence (it never divides by zero). -/
theorem total_and_average_spec :
    (∀ data : List ℚ, calculate_total data = data.sum)
    ∧ calculate_total [] = 0
    ∧ (∀ data : List ℚ, data ≠ [] →
        calculate_average data = calculate_total data / (data.length : ℚ))
    ∧ calculate_average [] = 0 := by
  refine ⟨fun data => ?_, rfl, fun data h => ?_, rfl⟩
  · rw [calculate_total, foldl_add_eq_add_sum, zero_add]
  · rw [calculate_average, if_neg (by simpa [List.isEmpty_iff] using h)]

/-- Witness for C2 at the concrete input `[1, 2]`. -/
theorem total_and_average_spec_witness :
    calculate_average [(1 : ℚ), 2] = calculate_total [(1 : ℚ), 2] / ((2 : ℕ) : ℚ) := by
  have h := total_and_average_spec.2.2.1 [(1 : ℚ), 2] (by simp)
  simpa using h

/-- Claim C4: `evaluate_performance` returns "High Performance" exactly when
`average ≥ threshold` and "Needs Improvement" otherwise, for every average and
every caller-supplied threshold (no range restriction); the boundary is
inclusive on the high side: at `(75, 75)` it is "High Performance" and at
`(74.999, 75)` it is "Needs Improvement". -/
theorem evaluate_performance_spec :
    (∀ average threshold : ℚ,
      (evaluate_performance average threshold = "High Performance" ↔ threshold ≤ average)
      ∧ (evaluate_performance average threshold = "Needs Improvement" ↔ average < threshold))
    ∧ evaluate_performance 75 75 = "High Performance"
    ∧ evaluate_performance (74999 / 1000) 75 = "Needs Improvement" := by
  have hne : ("Needs Improvement" : String) ≠ "High Performance" := by decide
  have key : ∀ average threshold : ℚ,
      (evaluate_performance average threshold = "High Performance" ↔ threshold ≤ average)
      ∧ (evaluate_performance average threshold = "Needs Improvement" ↔ average < threshold) := by
    intro average threshold
    by_cases h : threshold ≤ average
    · rw [evaluate_performance, if_pos h]
      constructor
      · simp [h]
      · constructor
        · intro hcontra; exact absurd hcontra (by decide)
        · intro hlt; exact absurd h (not_le.2 hlt)
    · rw [evaluate_performance, if_neg h]
      constructor
      · constructor
        · intro hcontra; exact absurd hcontra hne
        · intro hle; exact absurd hle h
      · simp [not_le.1 h]
  refine ⟨key, ?_, ?_⟩
  · exact (key 75 75).1.2 le_rfl
  · exact (key (74999 / 1000) 75).2.2 (by norm_num)

/-- Claim C5: `get_unique_categories` returns the set of distinct elements of
the input together with that set's cardinality; on
`["Math", "Physics", "Math"]` it returns `({"Math", "Physics"}, 2)`. -/
theorem get_unique_categories_spec :
    (∀ (categories : List String) (x : String),
        x ∈ (get_unique_categories categories).1 ↔ x ∈ categories)
    ∧ (∀ categories : List String,
        (get_unique_categories categories).2 = (get_unique_categories categories).1.card)
    ∧ get_unique_categories ["Math", "Physics", "Math"] = ({"Math", "Physics"}, 2) := by
  refine ⟨fun categories x => ?_, fun categories => rfl, by decide⟩
  simp [get_unique_categories]

/-- Claim C3: `calculate_minimum` and `calculate_maximum` return `none` on the
empty sequence and never raise (they are total); on every non-empty sequence
they return, via the linear scan from the first element, values `m`, `M` that
are elements of the sequence with `m ≤ x ≤ M` for every element `x`. -/
theorem minimum_maximum_spec :
    calculate_minimum ([] : List ℚ) = none ∧ calculate_maximum ([] : List ℚ) = none
    ∧ ∀ data : List ℚ, data ≠ [] →
        ∃ m M, calculate_minimum data = some m ∧ calculate_maximum data = some M
          ∧ m ∈ data ∧ M ∈ data ∧ ∀ x ∈ data, m ≤ x ∧ x ≤ M := by
  refine ⟨rfl, rfl, fun data h => ?_⟩
  match data with
  | [] => exact absurd rfl h
  | d :: ds =>
    refine ⟨ds.foldl (fun m v => if v < m then v else m) d,
            ds.foldl (fun m v => if v > m then v else m) d, rfl, rfl, ?_, ?_, ?_⟩
    · exact foldl_min_mem ds d
    · exact foldl_max_mem ds d
    · intro x hx
      rcases List.mem_cons.1 hx with hxd | hxds
      · rw [hxd]; exact ⟨(foldl_min_le ds d).1, (foldl_max_ge ds d).1⟩
      · exact ⟨(foldl_min_le ds d).2 x hxds, (foldl_max_ge ds d).2 x hxds⟩

/-- Witness for C3 at the concrete input `[3, 1, 2]`. -/
theorem minimum_maximum_spec_witness :
    ∃ m M, calculate_minimum [(3 : ℚ), 1, 2] = some m
      ∧ calculate_maximum [(3 : ℚ), 1, 2] = some M
      ∧ m ∈ [(3 : ℚ), 1, 2] ∧ M ∈ [(3 : ℚ), 1, 2]
      ∧ ∀ x ∈ [(3 : ℚ), 1, 2], m ≤ x ∧ x ≤ M :=
  minimum_maximum_spec.2.2 [(3 : ℚ), 1, 2] (by simp)

/-- The enumerate loop reports the first failing token at its offset from the
starting position. -/
lemma validateFrom_error_at : ∀ (ts : List String) (k pos : ℕ) (hk : k < ts.length),
    (∀ j (hj : j < k), (pyFloat (ts.get ⟨j, hj.trans hk⟩)).isSome = true) →
    pyFloat (ts.get ⟨k, hk⟩) = none →
    validateFrom pos ts = .error (.InvalidValue (ts.get ⟨k, hk⟩) (pos + k)) := by
  intro ts
  induction ts with
  | nil => intro k pos hk; exact absurd hk (by simp)
  | cons t ts ih =>
    intro k pos hk hok hbad
    cases k with
    | zero =>
      have ht : pyFloat t = none := hbad
      simp [validateFrom, ht]
    | succ k =>
      have h0 : (pyFloat t).isSome = true := hok 0 (Nat.succ_pos k)
      obtain ⟨v, hv⟩ := Option.isSome_iff_exists.1 h0
      have hk' : k < ts.length := Nat.lt_of_succ_lt_succ hk
      have hrec := ih k (pos + 1) hk'
        (fun j hj => hok (j + 1) (Nat.succ_lt_succ hj)) hbad
      have harith : pos + 1 + k = pos + (k + 1) := by omega
      rw [harith] at hrec
      simp [validateFrom, hv, hrec]

/-- Claim C1: `validate_numerical_data` fails with `EmptyInput` on an empty
token sequence; otherwise it scans tokens in order with 1-based positions and
at the first unparsable token fails with `InvalidValue` carrying that raw
token and its 1-based position, returning no partial result (the error is the
entire result).  On `["3", "x", "5"]` it reports value `"x"` at position 2. -/
theorem validate_numerical_data_spec :
    validate_numerical_data [] = .error .EmptyInput
    ∧ (∀ (tokens : List String) (k : ℕ) (hk : k < tokens.length),
        (∀ j (hj : j < k), (pyFloat (tokens.get ⟨j, hj.trans hk⟩)).isSome = true) →
        pyFloat (tokens.get ⟨k, hk⟩) = none →
        validate_numerical_data tokens = .error (.InvalidValue (tokens.get ⟨k, hk⟩) (k + 1)))
    ∧ validate_numerical_data ["3", "x", "5"] = .error (.InvalidValue "x" 2) := by
  refine ⟨rfl, ?_, ?_⟩
  · intro tokens k hk hok hbad
    match tokens, hk with
    | t :: ts, hk =>
      have hstep : validate_numerical_data (t :: ts) = validateFrom 1 (t :: ts) := rfl
      rw [hstep, validateFrom_error_at (t :: ts) k 1 hk hok hbad, Nat.add_comm 1 k]
  · simp [validate_numerical_data, validateFrom, pyFloat,
      show pyFloatScan "x" = none from by decide,
      show pyFloatScan "3" = some ⟨false, 3, 0, 0⟩ from by decide]

/-- Witness for C1: the middle of the three hypotheses-laden parts applied at
`["3", "x", "5"]`, `k = 1`. -/
theorem validate_numerical_data_spec_witness :
    validate_numerical_data ["3", "x", "5"] = .error (.InvalidValue "x" 2) := by
  have hok : ∀ j (hj : j < 1),
      (pyFloat ((["3", "x", "5"] : List String).get
        ⟨j, hj.trans (by decide : (1 : ℕ) < 3)⟩)).isSome = true := by
    intro j hj
    have hj0 : j = 0 := Nat.lt_one_iff.1 hj
    subst hj0
    show (pyFloat "3").isSome = true
    decide
  simpa using validate_numerical_data_spec.2.1 ["3", "x", "5"] 1 (by decide) hok (by decide)

/-! ### Readers over a modelled filesystem -/

/-- `filename.endswith('.csv')`. -/
def endsWithCsv (s : String) : Bool :=
  s.data.reverse.take 4 == ['v', 's', 'c', '.']

/-- The rows `csv.reader` yields for `content`: one row per line; an empty
line is the empty row, any other line splits at every comma.  (CSV quoting,
which none of the program's inputs use, is not modelled.) -/
def csvRows (content : String) : List (List String) :=
  (splitOnChar '\n' content.data []).map
    (fun line => if line = [] then [] else (splitOnChar ',' line []).map String.mk)

/-- The CSV branch of `read_numerical_data`: skip empty rows (`if row:`), then
append `value.strip()` for every cell whose strip is non-blank
(`if value.strip():`). -/
def flattenRows (rows : List (List String)) : List String :=
  ((rows.filter (fun row => !row.isEmpty)).map
    (fun row => (row.filter (fun v => pyStrip v != "")).map pyStrip)).flatten

/-- The plain-text branch of `read_numerical_data` (and the whole body of
`read_categorical_data`): one stripped token per non-blank line. -/
def lineTokens (content : String) : List String :=
  ((splitOnChar '\n' content.data []).map (fun l => pyStrip (String.mk l))).filter
    (fun v => v != "")

/-- A filesystem: file contents by name, plus which names can be opened for
writing. -/
structure FileSystem where
  files : String → Option String
  writable : String → Bool

/-- `read_numerical_data(filename)` over a filesystem: `FileNotFoundError`
when the file is missing, otherwise the CSV tokens for a `.csv` name and the
line tokens for any other name. -/
def read_numerical_data (fs : FileSystem) (filename : String) :
    Except String (List String) :=
  match fs.files filename with
  | none => .error ("Error: File " ++ filename ++ " not found")
  | some content =>
    .ok (if endsWithCsv filename then flattenRows (csvRows content) else lineTokens content)

/-- `read_categorical_data(filename)` over a filesystem. -/
def read_categorical_data (fs : FileSystem) (filename : String) :
    Except String (List String) :=
  match fs.files filename with
  | none => .error ("Error: File " ++ filename ++ " not found")
  | some content => .ok (lineTokens content)

/-- Rows with their blank cells removed, then with the resulting blank rows
removed: the same content "with those blanks absent". -/
def scrubRows (rows : List (List String)) : List (List String) :=
  (rows.map (fun row => row.filter (fun v => pyStrip v != ""))).filter
    (fun row => !row.isEmpty)

lemma join_filter_nonempty (g : List String → List String) (hg : g [] = [])
    (rows : List (List String)) :
    ((rows.filter (fun row => !row.isEmpty)).map g).flatten = (rows.map g).flatten := by
  induction rows with
  | nil => rfl
  | cons r rows ih =>
    cases hre : r.isEmpty with
    | true =>
      have hr : r = [] := List.isEmpty_iff.1 hre
      subst hr
      simp [List.filter_cons, hg, ih]
    | false =>
      simp [List.filter_cons, hre, ih]

lemma flattenRows_eq_join (rows : List (List String)) :
    flattenRows rows =
      (rows.map (fun row => (row.filter (fun v => pyStrip v != "")).map pyStrip)).flatten :=
  join_filter_nonempty _ rfl rows

/-- Claim C8: flattening ignores blank rows and blank cells, so CSV content
with blanks between valid entries gives the same flat token sequence as the
same content with the blanks absent.  The second conjunct runs
`read_numerical_data` on a concrete pair of such contents. -/
theorem csv_blank_invariance :
    (∀ rows : List (List String), flattenRows (scrubRows rows) = flattenRows rows)
    ∧ read_numerical_data
        ⟨fun n => if n = "data.csv" then some "85, ,92\n\n78,,79" else none, fun _ => true⟩
        "data.csv" = .ok ["85", "92", "78", "79"]
    ∧ read_numerical_data
        ⟨fun n => if n = "data.csv" then some "85,92\n78,79" else none, fun _ => true⟩
        "data.csv" = .ok ["85", "92", "78", "79"] := by
  refine ⟨fun rows => ?_, rfl, rfl⟩
  rw [flattenRows_eq_join, flattenRows_eq_join, scrubRows,
    join_filter_nonempty _ rfl, List.map_map]
  congr 1
  refine List.map_congr_left fun r _ => ?_
  simp [Function.comp, List.filter_filter]

/-- The numeric sample content named by the specification. -/
def sampleNumericContent : String :=
  "85,92,78,65,88,91,76,82,95,70,73,89,81,67,94,79,86,90,68,84"

/-- The twenty values the sample content denotes. -/
def sampleValues : List ℚ :=
  [85, 92, 78, 65, 88, 91, 76, 82, 95, 70, 73, 89, 81, 67, 94, 79, 86, 90, 68, 84]

/-- When every token parses, the enumerate loop returns exactly the parsed
values, in order. -/
lemma validateFrom_ok : ∀ (ts : List String) (vs : List ℚ) (pos : ℕ),
    ts.map pyFloat = vs.map some → validateFrom pos ts = .ok vs := by
  intro ts
  induction ts with
  | nil =>
    intro vs pos h
    cases vs with
    | nil => rfl
    | cons v vs => simp at h
  | cons t ts ih =>
    intro vs pos h
    cases vs with
    | nil => simp at h
    | cons v vs =>
      simp only [List.map_cons, List.cons.injEq] at h
      obtain ⟨h1, h2⟩ := h
      simp [validateFrom, h1, ih vs (pos + 1) h2]

/-- Claim C9: on the 20-token sample input, reading the tokens from the CSV
content, validation succeeds with exactly `sampleValues`, the count is 20, the
total is exactly 1633 and the average exactly 81.65 (both values are exact in
IEEE-754 doubles as well: 1633 is an integer and the two roundings of 81.65
coincide, so the rational equalities are the floating-point ones). -/
theorem sample_input_statistics :
    validate_numerical_data (flattenRows (csvRows sampleNumericContent)) = .ok sampleValues
    ∧ sampleValues.length = 20
    ∧ calculate_total sampleValues = 1633
    ∧ calculate_average sampleValues = 81.65 := by
  have htok : flattenRows (csvRows sampleNumericContent) =
      ["85", "92", "78", "65", "88", "91", "76", "82", "95", "70",
       "73", "89", "81", "67", "94", "79", "86", "90", "68", "84"] := by decide
  have hmap : (flattenRows (csvRows sampleNumericContent)).map pyFloat
      = sampleValues.map some := by
    rw [htok]
    simp only [List.map_cons, List.map_nil, sampleValues,
      pyFloat_scan_nat "85" 85 (by decide),
      pyFloat_scan_nat "92" 92 (by decide),
      pyFloat_scan_nat "78" 78 (by decide),
      pyFloat_scan_nat "65" 65 (by decide),
      pyFloat_scan_nat "88" 88 (by decide),
      pyFloat_scan_nat "91" 91 (by decide),
      pyFloat_scan_nat "76" 76 (by decide),
      pyFloat_scan_nat "82" 82 (by decide),
      pyFloat_scan_nat "95" 95 (by decide),
      pyFloat_scan_nat "70" 70 (by decide),
      pyFloat_scan_nat "73" 73 (by decide),
      pyFloat_scan_nat "89" 89 (by decide),
      pyFloat_scan_nat "81" 81 (by decide),
      pyFloat_scan_nat "67" 67 (by decide),
      pyFloat_scan_nat "94" 94 (by decide),
      pyFloat_scan_nat "79" 79 (by decide),
      pyFloat_scan_nat "86" 86 (by decide),
      pyFloat_scan_nat "90" 90 (by decide),
      pyFloat_scan_nat "68" 68 (by decide),
      pyFloat_scan_nat "84" 84 (by decide),
      Nat.cast_ofNat]
  have hval : validateFrom 1 (flattenRows (csvRows sampleNumericContent)) = .ok sampleValues :=
    validateFrom_ok _ _ 1 hmap
  refine ⟨?_, rfl, ?_, ?_⟩
  · rw [htok] at hval ⊢
    exact hval
  · norm_num [calculate_total, sampleValues]
  · norm_num [calculate_average, calculate_total, sampleValues]

/-! ### The DataSet orchestrator and its statistics dictionary -/

/-- A value stored in the `statistics` dictionary: a float, an int (`count`
and `unique_categories` are `len` results), a string (`performance`), or
Python's `None` (what `calculate_minimum`/`calculate_maximum` return on empty
data). -/
inductive StatValue where
  | num (q : ℚ) : StatValue
  | nat (n : ℕ) : StatValue
  | str (s : String) : StatValue
  | pyNone : StatValue
deriving DecidableEq, Repr

/-- The `statistics` dictionary: `none` means the key is absent. -/
abbrev Statistics := String → Option StatValue

/-- `d[k] = v` on the dictionary model. -/
def statInsert (m : Statistics) (k : String) (v : StatValue) : Statistics :=
  fun q => if q = k then some v else m q

/-- An `Option ℚ` as stored into the dictionary. -/
def optStat : Option ℚ → StatValue
  | some q => .num q
  | none => .pyNone

/-- The dictionary literal assigned by `calculate_statistics` when the numeric
data is non-empty: exactly the six numeric keys. -/
def numericStatistics (nd : List ℚ) (threshold : ℚ) : Statistics := fun k =>
  if k = "total" then some (.num (calculate_total nd))
  else if k = "average" then some (.num (calculate_average nd))
  else if k = "minimum" then some (optStat (calculate_minimum nd))
  else if k = "maximum" then some (optStat (calculate_maximum nd))
  else if k = "count" then some (.nat nd.length)
  else if k = "performance" then
    some (.str (evaluate_performance (calculate_average nd) threshold))
  else none

/-- The mutable state of a `DataSet` object (the two optional file paths only
feed `load_data`, which is I/O and not needed by the claims below). -/
structure DataSet where
  numerical_data : List ℚ
  categorical_data : List String
  statistics : Statistics
  unique_categories : Finset String

/-- A freshly constructed `DataSet`: empty data, empty dictionary, empty set. -/
def DataSet.init : DataSet :=
  ⟨[], [], fun _ => none, ∅⟩

/-- `calculate_statistics(threshold)`: if the numeric data is non-empty,
*assign* the whole dictionary to the six numeric keys; then, if the
categorical data is non-empty, store the unique-category set and *insert* its
count under `unique_categories`. -/
def DataSet.calculate_statistics (ds : DataSet) (threshold : ℚ) : DataSet :=
  let ds1 :=
    if ds.numerical_data.isEmpty then ds
    else { ds with statistics := numericStatistics ds.numerical_data threshold }
  if ds1.categorical_data.isEmpty then ds1
  else
    let uc := get_unique_categories ds1.categorical_data
    { ds1 with
        unique_categories := uc.1,
        statistics := statInsert ds1.statistics "unique_categories" (.nat uc.2) }

/-- Claim C6: on a freshly constructed `DataSet` whose numeric data is empty
and whose categorical data is non-empty, `calculate_statistics` produces a
dictionary holding exactly the key `unique_categories` (with the unique
count) and none of the numeric keys — the two blocks are independent. -/
theorem categorical_only_statistics (cs : List String) (hcs : cs ≠ []) :
    ({ DataSet.init with categorical_data := cs }.calculate_statistics 75).statistics
        "unique_categories" = some (.nat (get_unique_categories cs).2)
    ∧ ∀ k : String, k ≠ "unique_categories" →
        ({ DataSet.init with categorical_data := cs }.calculate_statistics 75).statistics
          k = none := by
  have hne : cs.isEmpty = false := by
    cases cs with
    | nil => exact absurd rfl hcs
    | cons c cs => rfl
  constructor
  · simp [DataSet.calculate_statistics, DataSet.init, hne, statInsert]
  · intro k hk
    simp [DataSet.calculate_statistics, DataSet.init, hne, statInsert, hk]

/-- Witness for C6 at the concrete input `["Math"]`. -/
theorem categorical_only_statistics_witness :
    ({ DataSet.init with categorical_data := ["Math"] }.calculate_statistics 75).statistics
        "unique_categories" = some (.nat (get_unique_categories ["Math"]).2)
    ∧ ∀ k : String, k ≠ "unique_categories" →
        ({ DataSet.init with categorical_data := ["Math"] }.calculate_statistics 75).statistics
          k = none :=
  categorical_only_statistics ["Math"] (by simp)

/-- Claim C10: `calculate_statistics` is asymmetric in how it touches the
dictionary.  With non-empty numeric data it *assigns* a fresh dictionary: the
six numeric keys get their computed values and every other previously present
key is gone (except `unique_categories`, which the independent categorical
block may re-add).  With empty numeric data and non-empty categorical data it
only inserts the single key `unique_categories`, leaving every other key of
the incoming dictionary unchanged. -/
theorem calculate_statistics_frame (nd : List ℚ) (cs : List String) (st : Statistics)
    (u : Finset String) (t : ℚ) :
    (nd ≠ [] →
      (∀ k : String,
        k ∈ (["total", "average", "minimum", "maximum", "count", "performance"] : List String) →
        (DataSet.calculate_statistics ⟨nd, cs, st, u⟩ t).statistics k = numericStatistics nd t k)
      ∧ ∀ k : String,
          k ∉ (["total", "average", "minimum", "maximum", "count", "performance"] : List String) →
          k ≠ "unique_categories" →
          (DataSet.calculate_statistics ⟨nd, cs, st, u⟩ t).statistics k = none)
    ∧ (nd = [] → cs ≠ [] →
      (DataSet.calculate_statistics ⟨nd, cs, st, u⟩ t).statistics "unique_categories"
        = some (.nat (get_unique_categories cs).2)
      ∧ ∀ k : String, k ≠ "unique_categories" →
          (DataSet.calculate_statistics ⟨nd, cs, st, u⟩ t).statistics k = st k) := by
  constructor
  · intro hnd
    have hnd' : nd.isEmpty = false := by
      cases nd with
      | nil => exact absurd rfl hnd
      | cons d ds => rfl
    constructor
    · intro k hk
      simp only [List.mem_cons, List.not_mem_nil, or_false] at hk
      cases hcs : cs.isEmpty with
      | true =>
        simp [DataSet.calculate_statistics, hnd', hcs]
      | false =>
        rcases hk with rfl | rfl | rfl | rfl | rfl | rfl <;>
          simp [DataSet.calculate_statistics, hnd', hcs, statInsert]
    · intro k hk hk'
      simp only [List.mem_cons, List.not_mem_nil, or_false, not_or] at hk
      obtain ⟨h1, h2, h3, h4, h5, h6⟩ := hk
      cases hcs : cs.isEmpty with
      | true =>
        simp [DataSet.calculate_statistics, hnd', hcs, numericStatistics,
          h1, h2, h3, h4, h5, h6]
      | false =>
        simp [DataSet.calculate_statistics, hnd', hcs, statInsert, numericStatistics,
          h1, h2, h3, h4, h5, h6, hk']
  · intro hnd hcs
    have hnd' : nd.isEmpty = true := by rw [hnd]; rfl
    have hcs' : cs.isEmpty = false := by
      cases cs with
      | nil => exact absurd rfl hcs
      | cons c cs => rfl
    constructor
    · simp [DataSet.calculate_statistics, hnd', hcs', statInsert]
    · intro k hk
      simp [DataSet.calculate_statistics, hnd', hcs', statInsert, hk]

/-- Witness for C10: both branches at concrete inputs — numeric data `[1]`
with a pre-existing `junk` key that gets discarded, and the empty numeric /
`["Math"]` categorical state where `junk` survives. -/
theorem calculate_statistics_frame_witness :
    ((∀ k : String,
        k ∈ (["total", "average", "minimum", "maximum", "count", "performance"] : List String) →
        (DataSet.calculate_statistics
            ⟨[1], [], (fun k => if k = "junk" then some .pyNone else none), ∅⟩ 75).statistics k
          = numericStatistics [1] 75 k)
      ∧ ∀ k : String,
          k ∉ (["total", "average", "minimum", "maximum", "count", "performance"] : List String) →
          k ≠ "unique_categories" →
          (DataSet.calculate_statistics
              ⟨[1], [], (fun k => if k = "junk" then some .pyNone else none), ∅⟩ 75).statistics k
            = none)
    ∧ ((DataSet.calculate_statistics
          ⟨[], ["Math"], (fun k => if k = "junk" then some .pyNone else none), ∅⟩ 75).statistics
            "unique_categories" = some (.nat (get_unique_categories ["Math"]).2)
      ∧ ∀ k : String, k ≠ "unique_categories" →
          (DataSet.calculate_statistics
              ⟨[], ["Math"], (fun k => if k = "junk" then some .pyNone else none), ∅⟩ 75).statistics
            k = (fun k : String => if k = "junk" then some StatValue.pyNone else none) k) :=
  ⟨(calculate_statistics_frame [1] []
      (fun k => if k = "junk" then some .pyNone else none) ∅ 75).1 (by simp),
   (calculate_statistics_frame []  ["Math"]
      (fun k => if k = "junk" then some .pyNone else none) ∅ 75).2 rfl (by simp)⟩

/-! ### The Reporter -/

/-- Round to the nearest integer, ties to even — how Python's `format` rounds
the values the report prints (exact on every value the program produces from
its sample inputs). -/
def roundHalfEven (q : ℚ) : ℤ :=
  let f := Int.floor q
  let r := q - f
  if r < 1 / 2 then f
  else if 1 / 2 < r then f + 1
  else if f % 2 = 0 then f else f + 1

/-- Insert a comma after every three digits of a reversed digit list, as the
format spec `,` groups a nonnegative integer. -/
def groupRev : List Char → List Char
  | d1 :: d2 :: d3 :: rest@(_ :: _) => d1 :: d2 :: d3 :: ',' :: groupRev rest
  | ds => ds

/-- Python's `format(n, ',')` for the naturals the report prints. -/
def fmtThousands (n : ℕ) : String :=
  String.mk ((groupRev (toString n).data.reverse).reverse)

/-- Python's `format(q, '.2f')` for the rationals the report prints. -/
def fmt2 (q : ℚ) : String :=
  let n := roundHalfEven (q * 100)
  let sign := if n < 0 then "-" else ""
  let m := n.natAbs
  sign ++ toString (m / 100) ++ "."
    ++ (if m % 100 < 10 then "0" else "") ++ toString (m % 100)

/-- `statistics.get(k, 0)` where a float is expected (`pyNone` also renders as
the 0 default, matching the Reporter conflation the spec notes in §9). -/
def statNum (st : Statistics) (k : String) : ℚ :=
  match st k with
  | some (.num q) => q
  | _ => 0

/-- `statistics.get(k, 0)` where an int is expected. -/
def statNat (st : Statistics) (k : String) : ℕ :=
  match st k with
  | some (.nat n) => n
  | _ => 0

/-- `statistics.get(k, 'N/A')`. -/
def statStr (st : Statistics) (k : String) : String :=
  match st k with
  | some (.str s) => s
  | _ => "N/A"

def eqBanner : String := String.mk (List.replicate 50 '=')

def dashBanner : String := String.mk (List.replicate 30 '-')

/-- The text `save_report` writes: the concatenation, in order, of its
`file.write` calls — title banner, the numeric block when `'count' in
statistics`, the categorical block when `'unique_categories' in statistics`
(with the unique categories sorted), and the closing banner. -/
def reportText (statistics : Statistics) (unique_categories : Finset String) : String :=
  "DATASET ANALYSIS REPORT\n" ++ eqBanner ++ "\n\n"
  ++ (if (statistics "count").isSome then
        "NUMERICAL DATA STATISTICS:\n" ++ dashBanner ++ "\n"
        ++ "Total Data Points: " ++ fmtThousands (statNat statistics "count") ++ "\n"
        ++ "Sum: " ++ fmt2 (statNum statistics "total") ++ "\n"
        ++ "Average: " ++ fmt2 (statNum statistics "average") ++ "\n"
        ++ "Minimum: " ++ fmt2 (statNum statistics "minimum") ++ "\n"
        ++ "Maximum: " ++ fmt2 (statNum statistics "maximum") ++ "\n"
        ++ "Performance: " ++ statStr statistics "performance" ++ "\n\n"
      else "")
  ++ (if (statistics "unique_categories").isSome then
        "CATEGORICAL DATA ANALYSIS:\n" ++ dashBanner ++ "\n"
        ++ "Unique Categories: " ++ toString (statNat statistics "unique_categories") ++ "\n"
        ++ (if unique_categories.Nonempty then
              "List of Unique Categories:\n"
              ++ String.join ((unique_categories.sort (· ≤ ·)).map
                    (fun c => "  - " ++ c ++ "\n"))
            else "")
      else "")
  ++ "\n" ++ eqBanner ++ "\n" ++ "Report generated by Dataset Management System\n"

/-- The `with open(filename, 'w') as file: ...` block: on a writable name the
whole content is written; otherwise the open raises. -/
def writeTextFile (fs : FileSystem) (filename content : String) :
    Except String FileSystem :=
  if fs.writable filename then
    .ok { fs with files := fun n => if n = filename then some content else fs.files n }
  else .error "write failure"

/-- `save_report(statistics, unique_categories, filename)`: attempt the write;
the `except Exception` arm turns any failure into the return value `False`,
leaving the filesystem as it was; success returns `True`.  The dictionary is
threaded through explicitly because it is shared mutable state in the source;
the body only reads it. -/
def save_report (fs : FileSystem) (statistics : Statistics)
    (unique_categories : Finset String) (filename : String) :
    FileSystem × Statistics × Bool :=
  match writeTextFile fs filename (reportText statistics unique_categories) with
  | .ok fs' => (fs', statistics, true)
  | .error _ => (fs, statistics, false)

/-- Claim C7: on an unwritable target the underlying write does fail, yet
`save_report` returns the boolean `false` — it is total into
`FileSystem × Statistics × Bool`, so no exception propagates — with the
filesystem and the statistics mapping unchanged.  The last two conjuncts show
the contrast making this the sole failure-to-boolean boundary: the readers
surface their failures as `Except.error` values to the caller, as the
validator also does by its `Except` result type. -/
theorem save_report_failure_spec (fs : FileSystem) (statistics : Statistics)
    (unique_categories : Finset String) (filename : String)
    (h : fs.writable filename = false) :
    writeTextFile fs filename (reportText statistics unique_categories)
        = .error "write failure"
    ∧ save_report fs statistics unique_categories filename = (fs, statistics, false)
    ∧ (∀ (fs2 : FileSystem) (fn : String), fs2.files fn = none →
        read_numerical_data fs2 fn = .error ("Error: File " ++ fn ++ " not found"))
    ∧ (∀ (fs2 : FileSystem) (fn : String), fs2.files fn = none →
        read_categorical_data fs2 fn = .error ("Error: File " ++ fn ++ " not found")) := by
  have hw : writeTextFile fs filename (reportText statistics unique_categories)
      = .error "write failure" := by
    rw [writeTextFile, if_neg (by simp [h])]
  refine ⟨hw, ?_, ?_, ?_⟩
  · rw [save_report, hw]
  · intro fs2 fn hfn
    rw [read_numerical_data, hfn]
  · intro fs2 fn hfn
    rw [read_categorical_data, hfn]

/-- Witness for C7 on a filesystem where nothing is writable. -/
theorem save_report_failure_spec_witness :
    save_report ⟨fun _ => none, fun _ => false⟩ (fun _ => none) ∅ "analysis_report.txt"
      = (⟨fun _ => none, fun _ => false⟩, (fun _ => none), false)
    ∧ read_numerical_data ⟨fun _ => none, fun _ => false⟩ "sample_data.csv"
      = .error ("Error: File " ++ "sample_data.csv" ++ " not found") :=
  ⟨(save_report_failure_spec ⟨fun _ => none, fun _ => false⟩ (fun _ => none) ∅
      "analysis_report.txt" rfl).2.1,
   (save_report_failure_spec ⟨fun _ => none, fun _ => false⟩ (fun _ => none) ∅
      "analysis_report.txt" rfl).2.2.1 ⟨fun _ => none, fun _ => false⟩ "sample_data.csv" rfl⟩
